import Mathlib

/-!
Shallow embedding of src/backend/app.py (a Flask credential-and-contact API)
and proofs about its specification claims.

Modelling conventions:
- The relational store is a `DB` value holding the three tables as lists of
  rows; SQL statements become list operations (filter / map / find?) that are
  faithful to the WHERE clauses of the source.
- Machine-level SQL types are `Nat` (ids, timestamps) and `String`; a NULL
  text column is modelled as the empty string, matching the COALESCE usage in
  the source and the fact that handlers insert "" for absent optional fields.
- JSON response bodies are association lists `List (String × JVal)` built in
  the exact order of the SELECT column lists of the source.
- PyJWT is modelled by `encodeJwt` / `jwtDecode`.  The wire format of a token
  (base64url JSON in reality) is modelled as `payload.exp.signature` with a
  little-endian decimal codec; what is preserved faithfully from PyJWT is the
  observable contract used by app.py: structural parse failure raises
  DecodeError (malformed), then the signature is verified against the key
  (InvalidSignatureError on mismatch), and only then are claims validated,
  raising ExpiredSignatureError iff exp <= now.  In particular PyJWT verifies
  the signature BEFORE validating exp, so an expired token with a wrong
  signature fails as invalid, not as expired.
- werkzeug generate_password_hash / check_password_hash are modelled by a
  deterministic tagging function; preserved contract: check succeeds on the
  password the hash was generated from, and a hash is not the plaintext.
- Postgres ILIKE with a %pattern% is modelled by case-insensitive (ASCII)
  substring containment; ORDER BY is modelled by a stable insertion sort.
-/

/-- JSON scalar values appearing in response bodies. -/
inductive JVal where
  | num (n : Nat)
  | str (s : String)
deriving DecidableEq

/-- A JSON object: association list of field name to value. -/
abbrev JObj := List (String × JVal)

/-- Row of the users table (id SERIAL, username UNIQUE, password hash, created_at). -/
structure UserRow where
  id : Nat
  username : String
  password : String
  created_at : Nat
deriving DecidableEq

/-- Row of the contacts table. -/
structure ContactRow where
  id : Nat
  user_id : Nat
  name : String
  phone : String
  address : String
  created_at : Nat
deriving DecidableEq

/-- Row of the secrets table. -/
structure SecretRow where
  id : Nat
  user_id : Nat
  title : String
  category : String
  username : String
  password : String
  api_key : String
  url : String
  notes : String
  created_at : Nat
  updated_at : Nat
deriving DecidableEq

/-- The database: the three tables created by init_database. -/
structure DB where
  users : List UserRow
  contacts : List ContactRow
  secrets : List SecretRow
deriving DecidableEq

/-- Outcome of an endpoint: a JSON body with implicit 200, or an error status
plus the error message of the source. -/
inductive ApiResult (α : Type) where
  | ok (body : α)
  | err (status : Nat) (msg : String)
deriving DecidableEq

/-- Outcome of the token_required decorator. -/
inductive AuthOutcome where
  | reject (status : Nat) (msg : String)
  | proceed (user : UserRow)
deriving DecidableEq

/-- Outcome of jwt.decode, by the exception raised (or the payload claim). -/
inductive JwtResult where
  | malformed
  | expired
  | invalidSignature
  | ok (userId : Nat)
deriving DecidableEq

/-- app.secret_key = os.environ.get('SECRET_KEY', 'dev-secret-key-change-in-production') -/
def appSecretKey (env : String → Option String) : String :=
  (env "SECRET_KEY").getD "dev-secret-key-change-in-production"

/-- Model of werkzeug.generate_password_hash: a deterministic one-way tag. -/
def hashPassword (p : String) : String :=
  "pbkdf2-sha256$" ++ p

/-- Model of werkzeug.check_password_hash. -/
def checkPasswordHash (stored given : String) : Bool :=
  stored == hashPassword given

/-- Model of the HMAC-SHA256 signature of a JWT payload under a key:
a deterministic function of the secret and the claims. -/
def macHash (secret : String) (userId exp : Nat) : Nat :=
  (secret.data.foldl (fun a c => a * 31 + c.toNat) 7) * 1000003 + userId * 65537 + exp

/-- Little-endian base-10 digits of n, by explicit fuel (structural recursion
so that the kernel can evaluate it). -/
def digitsFGo : Nat → Nat → List Nat
  | 0, _ => []
  | fuel + 1, n => if n = 0 then [] else n % 10 :: digitsFGo fuel (n / 10)

/-- Digit characters of a Nat (model serialization for JWT token segments). -/
def encNat (n : Nat) : List Char :=
  if n = 0 then ['0'] else (digitsFGo (n + 1) n).map (fun d => Char.ofNat (48 + d))

/-- Parse one decimal digit character. -/
def decDigit (c : Char) : Option Nat :=
  if 48 ≤ c.toNat ∧ c.toNat ≤ 57 then some (c.toNat - 48) else none

/-- Parse a list of decimal digit characters. -/
def decDigits : List Char → Option (List Nat)
  | [] => some []
  | c :: cs =>
    match decDigit c, decDigits cs with
    | some d, some ds => some (d :: ds)
    | _, _ => none

/-- Parse a nonempty digit string back to a Nat. -/
def decNat (l : List Char) : Option Nat :=
  match l, decDigits l with
  | [], _ => none
  | _ :: _, some ds => some (Nat.ofDigits 10 ds)
  | _ :: _, none => none

/-- Split a character list on the dot separators of the token wire format. -/
def splitDot : List Char → List (List Char)
  | [] => [[]]
  | c :: cs =>
    if c = '.' then [] :: splitDot cs
    else
      match splitDot cs with
      | [] => [[c]]
      | g :: gs => (c :: g) :: gs

/-- Parse the three segments userId.exp.signature of the modelled wire format. -/
def parseJwt (l : List Char) : Option (Nat × Nat × Nat) :=
  match splitDot l with
  | [u, e, s] =>
    match decNat u, decNat e, decNat s with
    | some uid, some exp, some sig => some (uid, exp, sig)
    | _, _, _ => none
  | _ => none

/-- jwt.encode of the payload used by app.py: user_id claim plus exp claim,
signed with the server secret. -/
def encodeJwt (secret : String) (userId exp : Nat) : String :=
  String.mk (encNat userId ++ '.' :: encNat exp ++ '.' :: encNat (macHash secret userId exp))

/-- jwt.decode(token, secret, algorithms=[HS256]) as observed by app.py:
structural parse failure is DecodeError (malformed); then the signature is
verified (InvalidSignatureError); then the exp claim is validated, failing
with ExpiredSignatureError iff exp <= now (PyJWT validates claims only after
the signature has been verified). -/
def jwtDecode (secret : String) (now : Nat) (token : String) : JwtResult :=
  match parseJwt token.data with
  | none => .malformed
  | some (uid, exp, sig) =>
    if sig = macHash secret uid exp then
      if exp ≤ now then .expired else .ok uid
    else .invalidSignature

/-- Bool test whether pat is a leading segment of l. -/
def leadsWith : List Char → List Char → Bool
  | [], _ => true
  | _ :: _, [] => false
  | p :: ps, h :: hs => p == h && leadsWith ps hs

/-- The Bearer-prefix stripping of token_required:
if token.startswith('Bearer '): token = token[7:]. -/
def stripBearer (t : String) : String :=
  if leadsWith "Bearer ".data t.data then String.mk (t.data.drop 7) else t

/-- The token_required decorator: reads the Authorization header, rejects a
missing (or empty, since Python treats "" as falsy) token, strips the
optional Bearer prefix, decodes the JWT, maps ExpiredSignatureError to 401
Token has expired and any other InvalidTokenError (decode failure or bad
signature) to 401 Invalid token, looks up the user_id claim in the users
table, rejects 401 if absent, and otherwise passes the user row on. -/
def token_required (db : DB) (secret : String) (now : Nat) (authHeader : Option String) : AuthOutcome :=
  match authHeader with
  | none => .reject 401 "Token is missing"
  | some t =>
    if t = "" then .reject 401 "Token is missing"
    else
      match jwtDecode secret now (stripBearer t) with
      | .malformed => .reject 401 "Invalid token"
      | .invalidSignature => .reject 401 "Invalid token"
      | .expired => .reject 401 "Token has expired"
      | .ok uid =>
        match db.users.find? (fun u => u.id == uid) with
        | none => .reject 401 "User not found"
        | some u => .proceed u

/-- Next value of the users id sequence (SERIAL; only inserts occur). -/
def nextUserId (db : DB) : Nat :=
  (db.users.foldr (fun u m => max u.id m) 0) + 1

/-- Next value of the contacts id sequence. -/
def nextContactId (db : DB) : Nat :=
  (db.contacts.foldr (fun c m => max c.id m) 0) + 1

/-- Next value of the secrets id sequence. -/
def nextSecretId (db : DB) : Nat :=
  (db.secrets.foldr (fun s m => max s.id m) 0) + 1

/-- create_default_admin: if no user named admin exists, insert one whose
password is the hash of the literal admin; otherwise leave the store alone. -/
def create_default_admin (db : DB) (now : Nat) : DB :=
  match db.users.find? (fun u => u.username == "admin") with
  | some _ => db
  | none =>
    { db with users := db.users ++ [⟨nextUserId db, "admin", hashPassword "admin", now⟩] }

/-- POST /api/register: reject empty username or password with 400; on a
duplicate username the INSERT raises IntegrityError, the transaction is
rolled back (no state change) and 400 Username already exists is returned;
otherwise insert the user with the hashed password and return a 7-day token
plus the username. -/
def register (db : DB) (now : Nat) (secret : String) (username password : String) :
    ApiResult (String × String) × DB :=
  if username = "" ∨ password = "" then (.err 400 "Username and password required", db)
  else if db.users.any (fun u => u.username == username) then
    (.err 400 "Username already exists", db)
  else
    let uid := nextUserId db
    ((.ok (encodeJwt secret uid (now + 7 * 86400), username)),
     { db with users := db.users ++ [⟨uid, username, hashPassword password, now⟩] })

/-- POST /api/login: look the username up, check the password hash, and
return a fresh 7-day token plus the username, else 401. -/
def login (db : DB) (now : Nat) (secret : String) (username password : String) :
    ApiResult (String × String) :=
  match db.users.find? (fun u => u.username == username) with
  | some u =>
    if checkPasswordHash u.password password then
      .ok (encodeJwt secret u.id (now + 7 * 86400), u.username)
    else .err 401 "Invalid username or password"
  | none => .err 401 "Invalid username or password"

/-- Username carried by a successful login body, if any. -/
def loginUser : ApiResult (String × String) → Option String
  | .ok (_, un) => some un
  | .err _ _ => none

/-- Username of the user an auth outcome proceeds with, if any. -/
def authUsername : AuthOutcome → Option String
  | .proceed u => some u.username
  | .reject _ _ => none

/-- ASCII lowercase of one character (the folding done by ILIKE). -/
def lowerChar (c : Char) : Char :=
  if 65 ≤ c.toNat ∧ c.toNat ≤ 90 then Char.ofNat (c.toNat + 32) else c

/-- Bool test whether pat occurs as a contiguous segment of l. -/
def occursIn (pat : List Char) : List Char → Bool
  | [] => leadsWith pat []
  | c :: cs => leadsWith pat (c :: cs) || occursIn pat cs

/-- field ILIKE concat('%', pat, '%'): case-insensitive substring containment. -/
def iLike (field pat : String) : Bool :=
  occursIn (pat.data.map lowerChar) (field.data.map lowerChar)

/-- Insert x into l in front of the first element not le-below it. -/
def insertSorted (le : α → α → Bool) (x : α) : List α → List α
  | [] => [x]
  | y :: ys => if le x y then x :: y :: ys else y :: insertSorted le x ys

/-- Insertion sort, the model of ORDER BY (stable, executable). -/
def sortBy (le : α → α → Bool) : List α → List α
  | [] => []
  | x :: xs => insertSorted le x (sortBy le xs)

/-- Lexicographic comparison of character lists by code point. -/
def lexLe : List Char → List Char → Bool
  | [], _ => true
  | _ :: _, [] => false
  | a :: as, b :: bs =>
    if a.toNat < b.toNat then true
    else if b.toNat < a.toNat then false
    else lexLe as bs

/-- ORDER BY name comparator for contacts. -/
def contactLe (a b : ContactRow) : Bool :=
  lexLe a.name.data b.name.data

/-- ORDER BY created_at DESC comparator for secrets. -/
def secretLe (a b : SecretRow) : Bool :=
  decide (b.created_at ≤ a.created_at)

/-- The WHERE clause of GET /api/contacts when a search is given:
name ILIKE pat OR phone ILIKE pat OR COALESCE(address, empty) ILIKE pat. -/
def contactMatch (search : String) (c : ContactRow) : Bool :=
  iLike c.name search || iLike c.phone search || iLike c.address search

/-- Rows selected and ordered by GET /api/contacts: two separate queries in
the source, with and without the search clauses, both scoped by user_id and
ordered by name. -/
def get_contacts_rows (db : DB) (uid : Nat) (search : String) : List ContactRow :=
  if search ≠ "" then
    sortBy contactLe (db.contacts.filter (fun c => c.user_id == uid && contactMatch search c))
  else
    sortBy contactLe (db.contacts.filter (fun c => c.user_id == uid))

/-- SELECT id, name, phone, address of one contact row. -/
def contactListRow (c : ContactRow) : JObj :=
  [("id", .num c.id), ("name", .str c.name), ("phone", .str c.phone),
   ("address", .str c.address)]

/-- GET /api/contacts. -/
def get_contacts (db : DB) (uid : Nat) (search : String) : List JObj :=
  (get_contacts_rows db uid search).map contactListRow

/-- POST /api/contacts: name and phone are required, else 400; on success the
row is inserted with the caller as owner. -/
def add_contact (db : DB) (now uid : Nat) (name phone address : String) :
    ApiResult Unit × DB :=
  if name = "" ∨ phone = "" then (.err 400 "Name and phone required", db)
  else
    (.ok (),
     { db with contacts := db.contacts ++ [⟨nextContactId db, uid, name, phone, address, now⟩] })

/-- PUT /api/contacts/id: runs the UPDATE over rows matching id AND user_id
(there is no required-field validation in this handler), then returns 404 if
no row matched. -/
def update_contact (db : DB) (uid cid : Nat) (name phone address : String) :
    ApiResult Unit × DB :=
  let affected := db.contacts.countP (fun c => c.id == cid && c.user_id == uid)
  let contacts2 := db.contacts.map (fun c =>
    if c.id == cid && c.user_id == uid then
      { c with name := name, phone := phone, address := address }
    else c)
  if affected = 0 then (.err 404 "Contact not found", { db with contacts := contacts2 })
  else (.ok (), { db with contacts := contacts2 })

/-- DELETE /api/contacts/id: deletes rows matching id AND user_id, 404 if
none matched. -/
def delete_contact (db : DB) (uid cid : Nat) : ApiResult Unit × DB :=
  let affected := db.contacts.countP (fun c => c.id == cid && c.user_id == uid)
  let contacts2 := db.contacts.filter (fun c => !(c.id == cid && c.user_id == uid))
  if affected = 0 then (.err 404 "Contact not found", { db with contacts := contacts2 })
  else (.ok (), { db with contacts := contacts2 })

/-- The search clause of GET /api/secrets:
title ILIKE pat OR username ILIKE pat OR url ILIKE pat. -/
def secretMatch (search : String) (s : SecretRow) : Bool :=
  iLike s.title search || iLike s.username search || iLike s.url search

/-- Rows selected and ordered by GET /api/secrets: the dynamically built
query is scoped by user_id, with the search clause appended when search is
nonempty and the exact category clause appended when category is nonempty,
ordered by created_at DESC. -/
def get_secrets_rows (db : DB) (uid : Nat) (search category : String) : List SecretRow :=
  sortBy secretLe (db.secrets.filter (fun s =>
    s.user_id == uid
    && (search == "" || secretMatch search s)
    && (category == "" || s.category == category)))

/-- SELECT id, title, category, username, url, created_at of one secret row:
the list projection, which omits password, api_key and notes. -/
def secretListRow (s : SecretRow) : JObj :=
  [("id", .num s.id), ("title", .str s.title), ("category", .str s.category),
   ("username", .str s.username), ("url", .str s.url), ("created_at", .num s.created_at)]

/-- GET /api/secrets. -/
def get_secrets (db : DB) (uid : Nat) (search category : String) : List JObj :=
  (get_secrets_rows db uid search category).map secretListRow

/-- SELECT id, title, category, username, password, api_key, url, notes,
created_at of one secret row: the single-record projection (note that
updated_at is not selected). -/
def secretFullRow (s : SecretRow) : JObj :=
  [("id", .num s.id), ("title", .str s.title), ("category", .str s.category),
   ("username", .str s.username), ("password", .str s.password),
   ("api_key", .str s.api_key), ("url", .str s.url), ("notes", .str s.notes),
   ("created_at", .num s.created_at)]

/-- GET /api/secrets/id: fetch the row matching id AND user_id, 404 if none. -/
def get_secret (db : DB) (uid sid : Nat) : ApiResult JObj :=
  match db.secrets.find? (fun s => s.id == sid && s.user_id == uid) with
  | none => .err 404 "Secret not found"
  | some s => .ok (secretFullRow s)

/-- POST /api/secrets: title is required, else 400; optional fields default
to the empty string (category to general). -/
def add_secret (db : DB) (now uid : Nat)
    (title category username password api_key url notes : String) :
    ApiResult Unit × DB :=
  if title = "" then (.err 400 "Title is required", db)
  else
    (.ok (),
     { db with secrets := db.secrets ++
        [⟨nextSecretId db, uid, title, category, username, password, api_key, url, notes, now, now⟩] })

/-- PUT /api/secrets/id: title is required, else 400 (before touching the
store); otherwise full-replace UPDATE over rows matching id AND user_id,
404 if none matched. -/
def update_secret (db : DB) (uid sid : Nat)
    (title category username password api_key url notes : String) :
    ApiResult Unit × DB :=
  if title = "" then (.err 400 "Title is required", db)
  else
    let affected := db.secrets.countP (fun s => s.id == sid && s.user_id == uid)
    let secrets2 := db.secrets.map (fun s =>
      if s.id == sid && s.user_id == uid then
        { s with title := title, category := category, username := username,
                 password := password, api_key := api_key, url := url, notes := notes }
      else s)
    if affected = 0 then (.err 404 "Secret not found", { db with secrets := secrets2 })
    else (.ok (), { db with secrets := secrets2 })

/-- DELETE /api/secrets/id: deletes rows matching id AND user_id, 404 if
none matched. -/
def delete_secret (db : DB) (uid sid : Nat) : ApiResult Unit × DB :=
  let affected := db.secrets.countP (fun s => s.id == sid && s.user_id == uid)
  let secrets2 := db.secrets.filter (fun s => !(s.id == sid && s.user_id == uid))
  if affected = 0 then (.err 404 "Secret not found", { db with secrets := secrets2 })
  else (.ok (), { db with secrets := secrets2 })

-- Helper lemmas: codec roundtrip, token wire format, sorting, list facts.

theorem digitsFGo_eq (fuel : Nat) : ∀ n : Nat, n ≤ fuel → digitsFGo fuel n = Nat.digits 10 n := by
  induction fuel with
  | zero =>
    intro n hn
    interval_cases n
    simp [digitsFGo]
  | succ fuel ih =>
    intro n hn
    by_cases h0 : n = 0
    · simp [digitsFGo, h0]
    · rw [digitsFGo, if_neg h0, Nat.digits_def' (by norm_num) (Nat.pos_of_ne_zero h0)]
      have hlt : n / 10 < n := Nat.div_lt_self (Nat.pos_of_ne_zero h0) (by norm_num)
      rw [ih (n / 10) (by omega)]

theorem decDigit_digitChar (d : Nat) (hd : d < 10) : decDigit (Char.ofNat (48 + d)) = some d := by
  interval_cases d <;> decide

theorem digitChar_ne_dot (d : Nat) (hd : d < 10) : Char.ofNat (48 + d) ≠ '.' := by
  interval_cases d <;> decide

theorem decDigits_map (ds : List Nat) (h : ∀ d ∈ ds, d < 10) :
    decDigits (ds.map (fun d => Char.ofNat (48 + d))) = some ds := by
  induction ds with
  | nil => rfl
  | cons d ds ih =>
    have hd : d < 10 := h d (by simp)
    simp only [List.map_cons, decDigits, decDigit_digitChar d hd,
      ih (fun x hx => h x (by simp [hx]))]

theorem decNat_encNat (n : Nat) : decNat (encNat n) = some n := by
  by_cases h0 : n = 0
  · subst h0; decide
  · have hdig : digitsFGo (n + 1) n = Nat.digits 10 n := digitsFGo_eq (n + 1) n (by omega)
    have hne : Nat.digits 10 n ≠ [] := Nat.digits_ne_nil_iff_ne_zero.mpr h0
    have hlt : ∀ d ∈ Nat.digits 10 n, d < 10 := fun d hd => Nat.digits_lt_base (by norm_num) hd
    rw [encNat, if_neg h0, hdig]
    rcases hd : Nat.digits 10 n with _ | ⟨d, ds⟩
    · exact absurd hd hne
    · rw [decNat.eq_def]
      simp only [List.map_cons]
      rw [hd] at hlt
      have := decDigits_map (d :: ds) hlt
      simp only [List.map_cons] at this
      rw [this]
      have := Nat.ofDigits_digits 10 n
      rw [hd] at this
      simp [this]

theorem encNat_no_dot (n : Nat) : ∀ c ∈ encNat n, c ≠ '.' := by
  by_cases h0 : n = 0
  · subst h0; decide
  · intro c hc
    rw [encNat, if_neg h0, digitsFGo_eq (n + 1) n (by omega)] at hc
    rcases List.mem_map.mp hc with ⟨d, hd, rfl⟩
    exact digitChar_ne_dot d (Nat.digits_lt_base (by norm_num) hd)

theorem splitDot_no_dot (l : List Char) (h : ∀ c ∈ l, c ≠ '.') : splitDot l = [l] := by
  induction l with
  | nil => rfl
  | cons c cs ih =>
    have hc : c ≠ '.' := h c (by simp)
    rw [splitDot, if_neg hc, ih (fun x hx => h x (by simp [hx]))]

theorem splitDot_append (a rest : List Char) (h : ∀ c ∈ a, c ≠ '.') :
    splitDot (a ++ '.' :: rest) = a :: splitDot rest := by
  induction a with
  | nil => simp [splitDot]
  | cons c cs ih =>
    have hc : c ≠ '.' := h c (by simp)
    rw [List.cons_append, splitDot, if_neg hc, ih (fun x hx => h x (by simp [hx]))]

theorem parseJwt_encodeJwt (secret : String) (uid exp : Nat) :
    parseJwt (encodeJwt secret uid exp).data = some (uid, exp, macHash secret uid exp) := by
  have hdata : (encodeJwt secret uid exp).data
      = encNat uid ++ '.' :: (encNat exp ++ '.' :: encNat (macHash secret uid exp)) := by
    show (encNat uid ++ '.' :: encNat exp) ++ '.' :: encNat (macHash secret uid exp) = _
    simp [List.append_assoc]
  rw [hdata, parseJwt, splitDot_append _ _ (encNat_no_dot uid),
    splitDot_append _ _ (encNat_no_dot exp),
    splitDot_no_dot _ (encNat_no_dot (macHash secret uid exp))]
  simp [decNat_encNat]

theorem jwtDecode_encodeJwt (secret : String) (uid exp now : Nat) :
    jwtDecode secret now (encodeJwt secret uid exp) =
      if exp ≤ now then .expired else .ok uid := by
  rw [jwtDecode, parseJwt_encodeJwt]
  simp

theorem leadsWith_self_append (l r : List Char) : leadsWith l (l ++ r) = true := by
  induction l with
  | nil => rfl
  | cons c cs ih => simp [leadsWith, ih]

theorem stripBearer_bearer (tok : String) : stripBearer ("Bearer " ++ tok) = tok := by
  rw [stripBearer, String.data_append]
  rw [if_pos (leadsWith_self_append _ _)]
  have : ("Bearer ".data).length = 7 := by decide
  rw [← this, List.drop_left]

theorem insertSorted_perm (le : α → α → Bool) (x : α) (l : List α) :
    (insertSorted le x l).Perm (x :: l) := by
  induction l with
  | nil => exact List.Perm.refl _
  | cons y ys ih =>
    rw [insertSorted]
    by_cases h : le x y = true
    · rw [if_pos h]
    · rw [if_neg h]
      exact (List.Perm.cons y ih).trans (List.Perm.swap x y ys)

theorem sortBy_perm (le : α → α → Bool) (l : List α) : (sortBy le l).Perm l := by
  induction l with
  | nil => exact List.Perm.refl _
  | cons x xs ih =>
    exact (insertSorted_perm le x (sortBy le xs)).trans (List.Perm.cons x ih)

theorem mem_insertSorted (le : α → α → Bool) (x : α) (l : List α) (a : α) :
    a ∈ insertSorted le x l ↔ a = x ∨ a ∈ l := by
  rw [(insertSorted_perm le x l).mem_iff, List.mem_cons]

theorem pairwise_insertSorted (le : α → α → Bool)
    (htrans : ∀ a b c, le a b = true → le b c = true → le a c = true)
    (htotal : ∀ a b, le a b = true ∨ le b a = true)
    (x : α) (l : List α) (h : l.Pairwise (fun a b => le a b = true)) :
    (insertSorted le x l).Pairwise (fun a b => le a b = true) := by
  induction l with
  | nil => simp [insertSorted]
  | cons y ys ih =>
    rw [List.pairwise_cons] at h
    obtain ⟨hy, hys⟩ := h
    rw [insertSorted]
    by_cases hxy : le x y = true
    · rw [if_pos hxy, List.pairwise_cons]
      refine ⟨?_, List.pairwise_cons.mpr ⟨hy, hys⟩⟩
      intro b hb
      rcases List.mem_cons.mp hb with rfl | hb
      · exact hxy
      · exact htrans x y b hxy (hy b hb)
    · rw [if_neg hxy, List.pairwise_cons]
      have hyx : le y x = true := (htotal x y).resolve_left hxy
      refine ⟨?_, ih hys⟩
      intro b hb
      rcases (mem_insertSorted le x ys b).mp hb with rfl | hb
      · exact hyx
      · exact hy b hb

theorem pairwise_sortBy (le : α → α → Bool)
    (htrans : ∀ a b c, le a b = true → le b c = true → le a c = true)
    (htotal : ∀ a b, le a b = true ∨ le b a = true)
    (l : List α) : (sortBy le l).Pairwise (fun a b => le a b = true) := by
  induction l with
  | nil => simp [sortBy]
  | cons x xs ih => exact pairwise_insertSorted le htrans htotal x (sortBy le xs) ih

theorem lexLe_cons_iff (a b : Char) (as bs : List Char) :
    lexLe (a :: as) (b :: bs) = true ↔
      a.toNat < b.toNat ∨ (a.toNat = b.toNat ∧ lexLe as bs = true) := by
  rw [lexLe]
  by_cases h1 : a.toNat < b.toNat
  · simp [h1]
  · by_cases h2 : b.toNat < a.toNat
    · simp [h1, h2]; omega
    · simp [h1, h2]; omega

theorem lexLe_total (a b : List Char) : lexLe a b = true ∨ lexLe b a = true := by
  induction a generalizing b with
  | nil => left; rfl
  | cons x xs ih =>
    cases b with
    | nil => right; rfl
    | cons y ys =>
      rcases Nat.lt_trichotomy x.toNat y.toNat with h | h | h
      · left; exact (lexLe_cons_iff _ _ _ _).mpr (Or.inl h)
      · rcases ih ys with h2 | h2
        · left; exact (lexLe_cons_iff _ _ _ _).mpr (Or.inr ⟨h, h2⟩)
        · right; exact (lexLe_cons_iff _ _ _ _).mpr (Or.inr ⟨h.symm, h2⟩)
      · right; exact (lexLe_cons_iff _ _ _ _).mpr (Or.inl h)

theorem lexLe_trans (a b c : List Char) (hab : lexLe a b = true) (hbc : lexLe b c = true) :
    lexLe a c = true := by
  induction a generalizing b c with
  | nil => rfl
  | cons x xs ih =>
    cases b with
    | nil => exact absurd hab (by simp [lexLe])
    | cons y ys =>
      cases c with
      | nil => exact absurd hbc (by simp [lexLe])
      | cons z zs =>
        rcases (lexLe_cons_iff _ _ _ _).mp hab with h1 | ⟨h1, h1t⟩ <;>
          rcases (lexLe_cons_iff _ _ _ _).mp hbc with h2 | ⟨h2, h2t⟩
        · exact (lexLe_cons_iff _ _ _ _).mpr (Or.inl (by omega))
        · exact (lexLe_cons_iff _ _ _ _).mpr (Or.inl (by omega))
        · exact (lexLe_cons_iff _ _ _ _).mpr (Or.inl (by omega))
        · exact (lexLe_cons_iff _ _ _ _).mpr (Or.inr ⟨by omega, ih ys zs h1t h2t⟩)

theorem contactLe_trans (a b c : ContactRow) (h1 : contactLe a b = true) (h2 : contactLe b c = true) :
    contactLe a c = true :=
  lexLe_trans _ _ _ h1 h2

theorem contactLe_total (a b : ContactRow) : contactLe a b = true ∨ contactLe b a = true :=
  lexLe_total _ _

theorem secretLe_trans (a b c : SecretRow) (h1 : secretLe a b = true) (h2 : secretLe b c = true) :
    secretLe a c = true := by
  simp only [secretLe, decide_eq_true_eq] at *
  omega

theorem secretLe_total (a b : SecretRow) : secretLe a b = true ∨ secretLe b a = true := by
  simp only [secretLe, decide_eq_true_eq]
  omega

theorem map_eq_self_of_fix (l : List α) (f : α → α) (h : ∀ a ∈ l, f a = a) :
    l.map f = l := by
  induction l with
  | nil => rfl
  | cons x xs ih => rw [List.map_cons, h x (by simp), ih (fun a ha => h a (by simp [ha]))]

theorem filter_eq_self_of (l : List α) (p : α → Bool) (h : ∀ a ∈ l, p a = true) :
    l.filter p = l := by
  induction l with
  | nil => rfl
  | cons x xs ih =>
    rw [List.filter_cons, if_pos (h x (by simp)), ih (fun a ha => h a (by simp [ha]))]

theorem foldr_max_le (l : List UserRow) (u : UserRow) (hu : u ∈ l) :
    u.id ≤ l.foldr (fun v m => max v.id m) 0 := by
  induction l with
  | nil => cases hu
  | cons x xs ih =>
    rcases List.mem_cons.mp hu with rfl | hu
    · exact Nat.le_max_left _ _
    · exact le_trans (ih hu) (Nat.le_max_right _ _)

theorem nextUserId_not_used (db : DB) (u : UserRow) (hu : u ∈ db.users) :
    u.id ≠ nextUserId db := by
  have := foldr_max_le db.users u hu
  rw [nextUserId]
  omega

-- Theorems for the specification claims.

/-- C1: ownership scoping. For users A and B with A different from B, every
single-record operation by A on a record whose id belongs to B (retrieval of
a secret, update or deletion of a contact or secret) fails with 404 NotFound
and leaves the store unchanged, because the row match requires both the id
and the owner id. -/
theorem cross_owner_access_not_found (db : DB) (A B cid sid : Nat)
    (name phone address title category username password api_key url notes : String)
    (hAB : A ≠ B)
    (hc : ∀ c ∈ db.contacts, c.id = cid → c.user_id = B)
    (hs : ∀ s ∈ db.secrets, s.id = sid → s.user_id = B)
    (htitle : title ≠ "") :
    get_secret db A sid = .err 404 "Secret not found" ∧
    update_contact db A cid name phone address = (.err 404 "Contact not found", db) ∧
    delete_contact db A cid = (.err 404 "Contact not found", db) ∧
    update_secret db A sid title category username password api_key url notes
      = (.err 404 "Secret not found", db) ∧
    delete_secret db A sid = (.err 404 "Secret not found", db) := by
  have hcp : ∀ c ∈ db.contacts, (c.id == cid && c.user_id == A) = false := by
    intro c hcmem
    rcases h : c.id == cid with _ | _
    · simp
    · have hub : c.user_id = B := hc c hcmem (by simpa using h)
      have hne : (B == A) = false := beq_eq_false_iff_ne.mpr (fun hBA => hAB hBA.symm)
      simp [h, hub, hne]
  have hsp : ∀ s ∈ db.secrets, (s.id == sid && s.user_id == A) = false := by
    intro s hsmem
    rcases h : s.id == sid with _ | _
    · simp
    · have hub : s.user_id = B := hs s hsmem (by simpa using h)
      have hne : (B == A) = false := beq_eq_false_iff_ne.mpr (fun hBA => hAB hBA.symm)
      simp [h, hub, hne]
  have hcc : db.contacts.countP (fun c => c.id == cid && c.user_id == A) = 0 :=
    List.countP_eq_zero.mpr (fun c hcm => by simp [hcp c hcm])
  have hsc : db.secrets.countP (fun s => s.id == sid && s.user_id == A) = 0 :=
    List.countP_eq_zero.mpr (fun s hsm => by simp [hsp s hsm])
  refine ⟨?_, ?_, ?_, ?_, ?_⟩
  · rw [get_secret, List.find?_eq_none.mpr (fun s hsm => by simp [hsp s hsm])]
  · rw [update_contact]
    simp only [hcc, if_pos rfl]
    rw [map_eq_self_of_fix _ _ (fun c hcm => by rw [hcp c hcm]; rfl)]
    simp
  · rw [delete_contact]
    simp only [hcc, if_pos rfl]
    rw [filter_eq_self_of _ _ (fun c hcm => by rw [hcp c hcm]; rfl)]
    simp
  · rw [update_secret, if_neg htitle]
    simp only [hsc, if_pos rfl]
    rw [map_eq_self_of_fix _ _ (fun s hsm => by rw [hsp s hsm]; rfl)]
    simp
  · rw [delete_secret]
    simp only [hsc, if_pos rfl]
    rw [filter_eq_self_of _ _ (fun s hsm => by rw [hsp s hsm]; rfl)]
    simp

/-- C1 witness: user 1 attacks records of user 2 at a concrete store. -/
theorem cross_owner_access_not_found_witness :
    get_secret ⟨[], [⟨1, 2, "n", "p", "", 0⟩], [⟨1, 2, "t", "general", "u", "pw", "a", "w", "x", 7, 7⟩]⟩ 1 1
      = .err 404 "Secret not found" ∧
    delete_contact ⟨[], [⟨1, 2, "n", "p", "", 0⟩], [⟨1, 2, "t", "general", "u", "pw", "a", "w", "x", 7, 7⟩]⟩ 1 1
      = (.err 404 "Contact not found",
         ⟨[], [⟨1, 2, "n", "p", "", 0⟩], [⟨1, 2, "t", "general", "u", "pw", "a", "w", "x", 7, 7⟩]⟩) := by
  have h := cross_owner_access_not_found
    ⟨[], [⟨1, 2, "n", "p", "", 0⟩], [⟨1, 2, "t", "general", "u", "pw", "a", "w", "x", 7, 7⟩]⟩
    1 2 1 1 "n2" "p2" "" "t2" "general" "" "" "" "" ""
    (by decide) (by decide) (by decide) (by decide)
  exact ⟨h.1, h.2.2.1⟩

/-- C2 counterexample: the claim says getOne returns all fields of the record
including its timestamps, but the single-record SELECT omits updated_at: for
a stored secret whose updated_at is 42, the returned object has no
updated_at key at all. -/
theorem get_secret_missing_updated_at :
    get_secret ⟨[⟨1, "alice", "h", 0⟩], [], [⟨1, 1, "t", "general", "u", "p", "a", "w", "x", 7, 42⟩]⟩ 1 1
      = .ok (secretFullRow ⟨1, 1, "t", "general", "u", "p", "a", "w", "x", 7, 42⟩) ∧
    List.lookup "updated_at" (secretFullRow ⟨1, 1, "t", "general", "u", "p", "a", "w", "x", 7, 42⟩)
      = none := by
  decide

/-- C2 amended: list rows never carry the password, api_key or notes keys,
and a successful getOne returns exactly the full projection of the matched
stored row, which carries title, category, username, password, api_key, url,
notes and the creation timestamp, but not the update timestamp. -/
theorem secret_projection_fields (db : DB) (uid sid : Nat) (search category : String) :
    (∀ obj ∈ get_secrets db uid search category,
      List.lookup "password" obj = none ∧ List.lookup "api_key" obj = none ∧
      List.lookup "notes" obj = none) ∧
    (∀ obj, get_secret db uid sid = .ok obj →
      ∃ s, db.secrets.find? (fun r => r.id == sid && r.user_id == uid) = some s ∧
        obj = secretFullRow s ∧
        List.lookup "title" obj = some (.str s.title) ∧
        List.lookup "category" obj = some (.str s.category) ∧
        List.lookup "username" obj = some (.str s.username) ∧
        List.lookup "password" obj = some (.str s.password) ∧
        List.lookup "api_key" obj = some (.str s.api_key) ∧
        List.lookup "url" obj = some (.str s.url) ∧
        List.lookup "notes" obj = some (.str s.notes) ∧
        List.lookup "created_at" obj = some (.num s.created_at) ∧
        List.lookup "updated_at" obj = none) := by
  constructor
  · intro obj hobj
    rcases List.mem_map.mp hobj with ⟨s, _, rfl⟩
    refine ⟨?_, ?_, ?_⟩ <;> rfl
  · intro obj hobj
    rw [get_secret] at hobj
    rcases hfind : db.secrets.find? (fun r => r.id == sid && r.user_id == uid) with _ | s
    · rw [hfind] at hobj; cases hobj
    · rw [hfind] at hobj
      cases hobj
      exact ⟨s, hfind, rfl, rfl, rfl, rfl, rfl, rfl, rfl, rfl, rfl, rfl⟩

/-- C2 witness: at a concrete store, the list projection of the stored secret
has no password key, and getOne resolves to the full projection carrying it. -/
theorem secret_projection_fields_witness :
    List.lookup "password" (secretListRow ⟨1, 1, "t", "general", "u", "p", "a", "w", "x", 7, 42⟩) = none ∧
    List.lookup "updated_at" (secretFullRow ⟨1, 1, "t", "general", "u", "p", "a", "w", "x", 7, 42⟩)
      = none := by
  have h := secret_projection_fields
    ⟨[⟨1, "alice", "h", 0⟩], [], [⟨1, 1, "t", "general", "u", "p", "a", "w", "x", 7, 42⟩]⟩ 1 1 "" ""
  refine ⟨(h.1 (secretListRow ⟨1, 1, "t", "general", "u", "p", "a", "w", "x", 7, 42⟩) (by decide)).1, ?_⟩
  obtain ⟨s, -, -, -, -, -, -, -, -, -, -, hup⟩ :=
    h.2 (secretFullRow ⟨1, 1, "t", "general", "u", "p", "a", "w", "x", 7, 42⟩) (by decide)
  exact hup

/-- C3: with SECRET_KEY unset in the environment, the signing secret the code
actually uses is the fixed hardcoded literal, not a randomly generated
process-local value as the specification requires. -/
theorem secret_key_default_fixed_literal :
    appSecretKey (fun _ => none) = "dev-secret-key-change-in-production" := rfl

/-- C4: the claim says update validates required fields exactly as create
does, but the contact update handler has no validation at all: at a store
with contact 1 owned by user 1, updating it with an empty name succeeds and
overwrites the row, while create with the same fields fails with 400; for
secrets the update handler does validate the empty title and changes
nothing. -/
theorem update_contact_skips_validation :
    update_contact ⟨[⟨1, "alice", "h", 0⟩], [⟨1, 1, "Alice", "555", "", 0⟩], []⟩ 1 1 "" "555" ""
      = (.ok (), ⟨[⟨1, "alice", "h", 0⟩], [⟨1, 1, "", "555", "", 0⟩], []⟩) ∧
    add_contact ⟨[⟨1, "alice", "h", 0⟩], [⟨1, 1, "Alice", "555", "", 0⟩], []⟩ 0 1 "" "555" ""
      = (.err 400 "Name and phone required", ⟨[⟨1, "alice", "h", 0⟩], [⟨1, 1, "Alice", "555", "", 0⟩], []⟩) ∧
    update_secret ⟨[⟨1, "alice", "h", 0⟩], [], [⟨1, 1, "t", "general", "u", "p", "a", "w", "x", 7, 7⟩]⟩
        1 1 "" "general" "" "" "" "" ""
      = (.err 400 "Title is required",
         ⟨[⟨1, "alice", "h", 0⟩], [], [⟨1, 1, "t", "general", "u", "p", "a", "w", "x", 7, 7⟩]⟩) := by
  decide

/-- C5 counterexample: the claim says an expired token fails with Expired
regardless of signature validity, but jwt.decode verifies the signature
first: this structurally valid token embeds exp 5 with a wrong signature 0,
and at now 10 (past expiry) verification fails with InvalidSignature, not
Expired. -/
theorem expired_bad_signature_not_expired :
    parseJwt (String.mk (encNat 1 ++ '.' :: (encNat 5 ++ '.' :: encNat 0))).data = some (1, 5, 0) ∧
    5 ≤ 10 ∧
    jwtDecode "k" 10 (String.mk (encNat 1 ++ '.' :: (encNat 5 ++ '.' :: encNat 0)))
      = .invalidSignature ∧
    jwtDecode "k" 10 (String.mk (encNat 1 ++ '.' :: (encNat 5 ++ '.' :: encNat 0)))
      ≠ .expired := by
  decide

/-- C5 amended: verification fails with Malformed when the token structure
does not parse; when it parses, the signature is checked first, failing with
InvalidSignature on mismatch even when the token is also expired; with a
matching signature it fails with Expired iff now is at or past the embedded
expiration, and otherwise returns the embedded userId; so a token verifies
to a userId iff its structure parses, its signature matches the server
secret, and the current time is before its expiration. -/
theorem jwt_verify_characterization (secret : String) (now : Nat) (token : String) :
    (parseJwt token.data = none → jwtDecode secret now token = .malformed) ∧
    (∀ uid exp sig, parseJwt token.data = some (uid, exp, sig) →
      (sig ≠ macHash secret uid exp → jwtDecode secret now token = .invalidSignature) ∧
      (sig = macHash secret uid exp → exp ≤ now → jwtDecode secret now token = .expired) ∧
      (sig = macHash secret uid exp → now < exp → jwtDecode secret now token = .ok uid)) ∧
    (∀ uid, jwtDecode secret now token = .ok uid ↔
      ∃ exp, parseJwt token.data = some (uid, exp, macHash secret uid exp) ∧ now < exp) := by
  refine ⟨?_, ?_, ?_⟩
  · intro h; rw [jwtDecode, h]
  · intro uid exp sig h
    refine ⟨?_, ?_, ?_⟩
    · intro hsig; rw [jwtDecode, h]; simp [hsig]
    · intro hsig hexp; rw [jwtDecode, h]; simp [hsig, hexp]
    · intro hsig hexp; rw [jwtDecode, h]; simp [hsig, Nat.not_le.mpr hexp]
  · intro uid
    constructor
    · intro h
      rcases hp : parseJwt token.data with _ | ⟨u2, e2, s2⟩
      · rw [jwtDecode, hp] at h; cases h
      · have hd : jwtDecode secret now token
            = if s2 = macHash secret u2 e2 then (if e2 ≤ now then .expired else .ok u2)
              else .invalidSignature := by
          rw [jwtDecode, hp]
        rw [hd] at h
        by_cases hsig : s2 = macHash secret u2 e2
        · rw [if_pos hsig] at h
          by_cases hexp : e2 ≤ now
          · rw [if_pos hexp] at h; cases h
          · rw [if_neg hexp] at h
            cases h
            exact ⟨e2, by rw [hsig], Nat.not_le.mp hexp⟩
        · rw [if_neg hsig] at h; cases h
    · rintro ⟨exp, hp, hexp⟩
      rw [jwtDecode, hp]
      simp [Nat.not_le.mpr hexp]

/-- C5 witness: a token with no separators is Malformed, and a token freshly
signed with the server secret and a future expiry verifies to its userId. -/
theorem jwt_verify_characterization_witness :
    jwtDecode "k" 10 "zz" = .malformed ∧
    jwtDecode "k" 0 (encodeJwt "k" 1 5) = .ok 1 := by
  refine ⟨(jwt_verify_characterization "k" 10 "zz").1 (by decide), ?_⟩
  exact ((jwt_verify_characterization "k" 0 (encodeJwt "k" 1 5)).2.2 1).mpr
    ⟨5, by rw [parseJwt_encodeJwt], by decide⟩

/-- C6: the auth middleware state machine. A missing (or empty) Authorization
header rejects 401; a header whose token decodes to Malformed or
InvalidSignature rejects 401 Invalid token; Expired rejects 401 Token has
expired; a verified token whose userId claim matches no stored user rejects
401 User not found; and a verified token whose claim resolves to a stored
user proceeds with exactly that user as the identity. -/
theorem auth_middleware_state_machine (db : DB) (secret : String) (now : Nat)
    (hdr : String) (uid : Nat) (u : UserRow) :
    (token_required db secret now none = .reject 401 "Token is missing") ∧
    (token_required db secret now (some "") = .reject 401 "Token is missing") ∧
    (hdr ≠ "" → jwtDecode secret now (stripBearer hdr) = .malformed →
      token_required db secret now (some hdr) = .reject 401 "Invalid token") ∧
    (hdr ≠ "" → jwtDecode secret now (stripBearer hdr) = .invalidSignature →
      token_required db secret now (some hdr) = .reject 401 "Invalid token") ∧
    (hdr ≠ "" → jwtDecode secret now (stripBearer hdr) = .expired →
      token_required db secret now (some hdr) = .reject 401 "Token has expired") ∧
    (hdr ≠ "" → jwtDecode secret now (stripBearer hdr) = .ok uid →
      db.users.find? (fun v => v.id == uid) = none →
      token_required db secret now (some hdr) = .reject 401 "User not found") ∧
    (hdr ≠ "" → jwtDecode secret now (stripBearer hdr) = .ok uid →
      db.users.find? (fun v => v.id == uid) = some u →
      token_required db secret now (some hdr) = .proceed u ∧ u.id = uid) := by
  refine ⟨rfl, rfl, ?_, ?_, ?_, ?_, ?_⟩
  · intro hne hdec
    rw [token_required, if_neg hne, hdec]
  · intro hne hdec
    rw [token_required, if_neg hne, hdec]
  · intro hne hdec
    rw [token_required, if_neg hne, hdec]
  · intro hne hdec hfind
    have hstep : token_required db secret now (some hdr)
        = match db.users.find? (fun v => v.id == uid) with
          | none => AuthOutcome.reject 401 "User not found"
          | some w => AuthOutcome.proceed w := by
      rw [token_required, if_neg hne, hdec]
    rw [hstep, hfind]
  · intro hne hdec hfind
    have hstep : token_required db secret now (some hdr)
        = match db.users.find? (fun v => v.id == uid) with
          | none => AuthOutcome.reject 401 "User not found"
          | some w => AuthOutcome.proceed w := by
      rw [token_required, if_neg hne, hdec]
    refine ⟨by rw [hstep, hfind], ?_⟩
    have := List.find?_some hfind
    simpa using this

/-- C6 witness: all five reachable outcomes at a concrete store, secret k and
time 10: missing header, malformed token, expired token, unknown user claim,
and a valid token resolving to the stored user. -/
theorem auth_middleware_state_machine_witness :
    token_required ⟨[⟨1, "bob", "h", 0⟩], [], []⟩ "k" 10 none
      = .reject 401 "Token is missing" ∧
    token_required ⟨[⟨1, "bob", "h", 0⟩], [], []⟩ "k" 10 (some "zz")
      = .reject 401 "Invalid token" ∧
    token_required ⟨[⟨1, "bob", "h", 0⟩], [], []⟩ "k" 10 (some (encodeJwt "k" 1 5))
      = .reject 401 "Token has expired" ∧
    token_required ⟨[⟨1, "bob", "h", 0⟩], [], []⟩ "k" 10 (some (encodeJwt "k" 2 99))
      = .reject 401 "User not found" ∧
    token_required ⟨[⟨1, "bob", "h", 0⟩], [], []⟩ "k" 10 (some ("Bearer " ++ encodeJwt "k" 1 99))
      = .proceed ⟨1, "bob", "h", 0⟩ := by
  refine ⟨(auth_middleware_state_machine ⟨[⟨1, "bob", "h", 0⟩], [], []⟩ "k" 10 "" 0 ⟨1, "bob", "h", 0⟩).1,
    (auth_middleware_state_machine ⟨[⟨1, "bob", "h", 0⟩], [], []⟩ "k" 10 "zz" 0
      ⟨1, "bob", "h", 0⟩).2.2.1 (by decide) (by decide),
    (auth_middleware_state_machine ⟨[⟨1, "bob", "h", 0⟩], [], []⟩ "k" 10 (encodeJwt "k" 1 5) 0
      ⟨1, "bob", "h", 0⟩).2.2.2.2.1 (by decide) (by decide),
    (auth_middleware_state_machine ⟨[⟨1, "bob", "h", 0⟩], [], []⟩ "k" 10 (encodeJwt "k" 2 99) 2
      ⟨1, "bob", "h", 0⟩).2.2.2.2.2.1 (by decide) (by decide) (by decide),
    ((auth_middleware_state_machine ⟨[⟨1, "bob", "h", 0⟩], [], []⟩ "k" 10
      ("Bearer " ++ encodeJwt "k" 1 99) 1 ⟨1, "bob", "h", 0⟩).2.2.2.2.2.2 (by decide)
      (by decide) (by decide)).1⟩

/-- C7: registering a username that already exists in the store (with
nonempty inputs, which are checked first) fails with 400 Username already
exists and leaves the user table exactly as it was. -/
theorem register_duplicate_username (db : DB) (now : Nat) (secret name pw : String)
    (hname : name ≠ "") (hpw : pw ≠ "")
    (hdup : ∃ u ∈ db.users, u.username = name) :
    register db now secret name pw = (.err 400 "Username already exists", db) := by
  rw [register, if_neg (by tauto)]
  rcases hdup with ⟨u, hu, hun⟩
  rw [if_pos (List.any_eq_true.mpr ⟨u, hu, by simp [hun]⟩)]

/-- C7 witness: re-registering bob at a store that already holds bob. -/
theorem register_duplicate_username_witness :
    register ⟨[⟨1, "bob", "h", 0⟩], [], []⟩ 0 "k" "bob" "pw2"
      = (.err 400 "Username already exists", ⟨[⟨1, "bob", "h", 0⟩], [], []⟩) :=
  register_duplicate_username ⟨[⟨1, "bob", "h", 0⟩], [], []⟩ 0 "k" "bob" "pw2"
    (by decide) (by decide) ⟨⟨1, "bob", "h", 0⟩, by decide, rfl⟩

/-- C8: registration round-trip. A valid registration (nonempty fields,
fresh username) succeeds, returns the registered username, and the issued
token, presented as a Bearer Authorization header against the post-register
store at any time before its 7-day expiry, passes the middleware and
resolves to a user with that same username. -/
theorem register_token_roundtrip (db db2 : DB) (now now2 : Nat)
    (secret name pw tok rname : String)
    (hname : name ≠ "") (hpw : pw ≠ "")
    (hfresh : ∀ u ∈ db.users, u.username ≠ name)
    (hreg : register db now secret name pw = (.ok (tok, rname), db2))
    (hnow : now2 < now + 7 * 86400) :
    rname = name ∧
    authUsername (token_required db2 secret now2 (some ("Bearer " ++ tok))) = some name := by
  rw [register, if_neg (by tauto),
    if_neg (by simp only [List.any_eq_true, not_exists]
               intro u
               simp only [not_and, beq_iff_eq]
               exact fun hu => hfresh u hu)] at hreg
  simp only [Prod.mk.injEq, ApiResult.ok.injEq] at hreg
  obtain ⟨⟨htok, hrname⟩, hdb2⟩ := hreg
  refine ⟨hrname.symm, ?_⟩
  have hne : ("Bearer " ++ tok) ≠ "" := by
    intro hcon
    have := congrArg String.data hcon
    rw [String.data_append] at this
    cases this
  rw [token_required, if_neg hne, stripBearer_bearer, ← htok, jwtDecode_encodeJwt,
    if_neg (Nat.not_le.mpr hnow), ← hdb2]
  have hnone : db.users.find? (fun v => v.id == nextUserId db) = none :=
    List.find?_eq_none.mpr (fun u hu => by
      simp only [beq_iff_eq]
      exact nextUserId_not_used db u hu)
  have hfind : (db.users ++ [(⟨nextUserId db, name, hashPassword pw, now⟩ : UserRow)]).find?
      (fun v => v.id == nextUserId db)
      = some ⟨nextUserId db, name, hashPassword pw, now⟩ := by
    rw [List.find?_append, hnone]
    simp [List.find?]
  show authUsername
      (match (db.users ++ [(⟨nextUserId db, name, hashPassword pw, now⟩ : UserRow)]).find?
          (fun v => v.id == nextUserId db) with
        | none => AuthOutcome.reject 401 "User not found"
        | some w => AuthOutcome.proceed w)
      = some name
  rw [hfind]
  rfl

/-- C8 witness: registering bob at the empty store at time 0 and presenting
the issued token at time 1 resolves back to bob. -/
theorem register_token_roundtrip_witness :
    authUsername (token_required ⟨[⟨1, "bob", hashPassword "pw123", 0⟩], [], []⟩ "k" 1
      (some ("Bearer " ++ encodeJwt "k" 1 604800))) = some "bob" :=
  (register_token_roundtrip ⟨[], [], []⟩ ⟨[⟨1, "bob", hashPassword "pw123", 0⟩], [], []⟩
    0 1 "k" "bob" "pw123" (encodeJwt "k" 1 604800) "bob"
    (by decide) (by decide) (by intro u hu; cases hu) (by decide) (by decide)).2

/-- C9: the list endpoints select exactly the rows owned by the requesting
user that pass the search filters, and order them as the source does: the
contact listing is a permutation of the contacts owned by uid whose
name/phone/address case-insensitively contain the search text (no filter
when the search text is empty) sorted ascending by name, and the secret
listing is a permutation of the secrets owned by uid passing the
title/username/url search filter and the exact category filter, sorted by
creation time descending. -/
theorem list_owner_filter_order (db : DB) (uid : Nat) (search category : String) :
    (get_contacts_rows db uid search).Perm
      (db.contacts.filter (fun c =>
        c.user_id == uid && (search == "" || contactMatch search c))) ∧
    (get_contacts_rows db uid search).Pairwise (fun a b => contactLe a b = true) ∧
    (get_secrets_rows db uid search category).Perm
      (db.secrets.filter (fun s =>
        s.user_id == uid && (search == "" || secretMatch search s)
          && (category == "" || s.category == category))) ∧
    (get_secrets_rows db uid search category).Pairwise (fun a b => secretLe a b = true) := by
  refine ⟨?_, ?_, ?_, ?_⟩
  · rw [get_contacts_rows]
    by_cases hs : search = ""
    · rw [if_neg (by simp [hs])]
      have hpred : (fun c : ContactRow =>
          c.user_id == uid && (search == "" || contactMatch search c))
          = (fun c : ContactRow => c.user_id == uid) := by
        funext c
        rw [hs]
        simp
      rw [hpred]
      exact sortBy_perm _ _
    · rw [if_pos hs]
      have hpred : (fun c : ContactRow =>
          c.user_id == uid && (search == "" || contactMatch search c))
          = (fun c : ContactRow => c.user_id == uid && contactMatch search c) := by
        funext c
        rw [beq_eq_false_iff_ne.mpr hs]
        simp
      rw [hpred]
      exact sortBy_perm _ _
  · rw [get_contacts_rows]
    by_cases hs : search = ""
    · rw [if_neg (by simp [hs])]
      exact pairwise_sortBy contactLe contactLe_trans contactLe_total _
    · rw [if_pos hs]
      exact pairwise_sortBy contactLe contactLe_trans contactLe_total _
  · exact sortBy_perm _ _
  · exact pairwise_sortBy secretLe secretLe_trans secretLe_total _

/-- C10 counterexample: the claim says that after any successful startup the
admin user can log in with the fixed credential, but when a user named admin
already exists with a different password, startup keeps it unchanged and the
fixed credential admin/admin is rejected with 401. -/
theorem admin_fixed_credential_counterexample :
    create_default_admin ⟨[⟨1, "admin", hashPassword "other", 0⟩], [], []⟩ 5
      = ⟨[⟨1, "admin", hashPassword "other", 0⟩], [], []⟩ ∧
    login (create_default_admin ⟨[⟨1, "admin", hashPassword "other", 0⟩], [], []⟩ 5) 9 "k"
        "admin" "admin"
      = .err 401 "Invalid username or password" := by
  decide

/-- C10 amended: after startup a user named admin always exists (created
with the hashed fixed password when absent, kept as-is when present); and
when no user named admin existed before startup, the created account does
log in with the fixed credential admin/admin. -/
theorem default_admin_exists_and_login (db : DB) (now now2 : Nat) (secret : String) :
    ((create_default_admin db now).users.any (fun u => u.username == "admin") = true) ∧
    ((∀ u ∈ db.users, u.username ≠ "admin") →
      loginUser (login (create_default_admin db now) now2 secret "admin" "admin")
        = some "admin") := by
  constructor
  · rcases hfind : db.users.find? (fun u => u.username == "admin") with _ | u
    · rw [create_default_admin, hfind]
      show (db.users ++ [(⟨nextUserId db, "admin", hashPassword "admin", now⟩ : UserRow)]).any
          (fun u => u.username == "admin") = true
      simp
    · rw [create_default_admin, hfind]
      show db.users.any (fun u => u.username == "admin") = true
      refine List.any_eq_true.mpr ⟨u, List.mem_of_find?_eq_some hfind, ?_⟩
      simpa using List.find?_some hfind
  · intro hfresh
    have hnone : db.users.find? (fun u => u.username == "admin") = none :=
      List.find?_eq_none.mpr (fun u hu => by
        simp only [beq_iff_eq]
        exact hfresh u hu)
    rw [create_default_admin, hnone]
    rw [login]
    have hadm : ((db.users ++ [(⟨nextUserId db, "admin", hashPassword "admin", now⟩ : UserRow)]).find?
        (fun u => u.username == "admin"))
        = some ⟨nextUserId db, "admin", hashPassword "admin", now⟩ := by
      rw [List.find?_append, hnone]
      simp [List.find?]
    show loginUser
        (match (db.users ++ [(⟨nextUserId db, "admin", hashPassword "admin", now⟩ : UserRow)]).find?
            (fun u => u.username == "admin") with
          | some u =>
            if checkPasswordHash u.password "admin" then
              .ok (encodeJwt secret u.id (now2 + 7 * 86400), u.username)
            else .err 401 "Invalid username or password"
          | none => .err 401 "Invalid username or password")
        = some "admin"
    rw [hadm]
    simp [checkPasswordHash, loginUser]

/-- C10 witness: starting from a store with no admin user, the admin account
exists afterwards and the fixed credential logs in. -/
theorem default_admin_exists_and_login_witness :
    ((create_default_admin ⟨[], [], []⟩ 0).users.any (fun u => u.username == "admin") = true) ∧
    loginUser (login (create_default_admin ⟨[], [], []⟩ 0) 5 "k" "admin" "admin")
      = some "admin" :=
  ⟨(default_admin_exists_and_login ⟨[], [], []⟩ 0 5 "k").1,
   (default_admin_exists_and_login ⟨[], [], []⟩ 0 5 "k").2 (by intro u hu; cases hu)⟩
